import Mathlib

/-!
Verification development for the check-host network-diagnostic client
(`check_host.py`).  The per-vantage-point raw payloads delivered by the
backend are JSON values; we embed them as the inductive type `JVal` and give
the Python operations the code performs on them (indexing, `len`,
multiplication by 1000, truthiness, `sum`, `min`, `max`) their exact Python
semantics, with `Except String` modelling a raised Python exception
(`TypeError` / `IndexError` / `ValueError`).  Numbers are embedded as
rationals: the numeric claims of the specification are stated over exact
arithmetic.

The five result normalizers (`NetworkTester.ping`, `http_check`,
`tcp_check`, `udp_check`, `dns_check`), the poll loop
(`CheckHostAPI._get_check_results`) and the submission retry loop
(`CheckHostAPI.check_ping` and its four identical siblings) are embedded
from the source; the network itself is abstracted as the list of responses
each loop observes, and wall-clock time as the elapsed value the code reads
after each poll iteration.
-/

namespace CheckHost

/-- A JSON value as delivered by the backend (`response.json()` pieces).
JSON objects do not occur inside per-node payload values in any code path
this development covers, so they are omitted from the embedding. -/
inductive JVal where
  | null
  | bool (b : Bool)
  | num (q : ℚ)
  | str (s : String)
  | arr (xs : List JVal)

/-- Python truthiness of a value (`if node_result ...`). -/
def pyTruthy : JVal → Bool
  | JVal.null => false
  | JVal.bool b => b
  | JVal.num q => q != 0
  | JVal.str s => !s.data.isEmpty
  | JVal.arr xs => !xs.isEmpty

/-- Whether the value is Python `None` (`v is not None` tests). -/
def isNull : JVal → Bool
  | JVal.null => true
  | _ => false

/-- Python subscript `v[i]` for a non-negative index: lists and strings are
indexable (a string yields a one-character string), everything else raises
`TypeError`; an out-of-range index raises `IndexError`. -/
def pyIndex : JVal → Nat → Except String JVal
  | JVal.arr xs, i =>
    match xs.get? i with
    | some x => Except.ok x
    | none => Except.error "IndexError"
  | JVal.str s, i =>
    match s.data.get? i with
    | some c => Except.ok (JVal.str (String.mk [c]))
    | none => Except.error "IndexError"
  | _, _ => Except.error "TypeError"

/-- Python `len(v)`: defined on lists and strings, `TypeError` otherwise. -/
def pyLen : JVal → Except String Nat
  | JVal.arr xs => Except.ok xs.length
  | JVal.str s => Except.ok s.data.length
  | _ => Except.error "TypeError"

/-- String repetition, for Python `s * n`. -/
def strRepeat (s : String) : Nat → String
  | 0 => ""
  | n + 1 => s ++ strRepeat s n

/-- List repetition, for Python `xs * n`. -/
def listRepeat (xs : List JVal) : Nat → List JVal
  | 0 => []
  | n + 1 => xs ++ listRepeat xs n

/-- Python `v * 1000` (the seconds-to-milliseconds conversions): numbers
and booleans multiply arithmetically, strings and lists repeat, `None`
raises `TypeError`. -/
def pyMul1000 : JVal → Except String JVal
  | JVal.num q => Except.ok (JVal.num (q * 1000))
  | JVal.bool b => Except.ok (JVal.num (if b then 1000 else 0))
  | JVal.str s => Except.ok (JVal.str (strRepeat s 1000))
  | JVal.arr xs => Except.ok (JVal.arr (listRepeat xs 1000))
  | JVal.null => Except.error "TypeError"

/-- Coerce a value to a number as Python addition/comparison does inside
`sum`, `min`, `max`: numbers and booleans are numeric, anything else mixes
types with the numeric accumulator and raises `TypeError`. -/
def asNum : JVal → Except String ℚ
  | JVal.num q => Except.ok q
  | JVal.bool b => Except.ok (if b then 1 else 0)
  | _ => Except.error "TypeError"

/-- Python `sum(xs)` over a list of values (accumulator starts at `0`). -/
def pySum : List JVal → Except String ℚ
  | [] => Except.ok 0
  | x :: rest => do
    let q ← asNum x
    let s ← pySum rest
    pure (q + s)

/-- Fold for Python `min` over the tail of a list. -/
def pyMinFold (q : ℚ) : List JVal → Except String ℚ
  | [] => Except.ok q
  | x :: rest => do
    let r ← asNum x
    pyMinFold (min q r) rest

/-- Python `min(xs)` on a list reached only when all elements are numeric
(the code computes `sum(rtts)/len(rtts)` first, which raises on any
non-numeric element). -/
def pyMinQ : List JVal → Except String ℚ
  | [] => Except.error "ValueError"
  | x :: rest => do
    let r ← asNum x
    pyMinFold r rest

/-- Fold for Python `max` over the tail of a list. -/
def pyMaxFold (q : ℚ) : List JVal → Except String ℚ
  | [] => Except.ok q
  | x :: rest => do
    let r ← asNum x
    pyMaxFold (max q r) rest

/-- Python `max(xs)`, same proviso as `pyMinQ`. -/
def pyMaxQ : List JVal → Except String ℚ
  | [] => Except.error "ValueError"
  | x :: rest => do
    let r ← asNum x
    pyMaxFold r rest

/-- Python `v == "OK"` (never raises; only equal for that exact string). -/
def eqOK : JVal → Bool
  | JVal.str s => s == "OK"
  | _ => false

/-- Python `v == 1` (numbers compare numerically, `True == 1` holds). -/
def eqOne : JVal → Bool
  | JVal.num q => q == 1
  | JVal.bool b => b
  | _ => false

/-- Reference data for one vantage point (`NODE_DETAILS` values). -/
structure NodeInfo where
  country : String
  city : String
  continent : String

/-- The static `NODE_DETAILS` reference table, embedded verbatim. -/
def NODE_DETAILS : List (String × NodeInfo) :=
  [("bg1.node.check-host.net", ⟨"Bulgaria", "Sofia", "EU"⟩),
   ("br1.node.check-host.net", ⟨"Brazil", "Sao Paulo", "SA"⟩),
   ("ch1.node.check-host.net", ⟨"Switzerland", "Zurich", "EU"⟩),
   ("cz1.node.check-host.net", ⟨"Czechia", "C.Budejovice", "EU"⟩),
   ("de1.node.check-host.net", ⟨"Germany", "Nuremberg", "EU"⟩),
   ("de4.node.check-host.net", ⟨"Germany", "Frankfurt", "EU"⟩),
   ("es1.node.check-host.net", ⟨"Spain", "Barcelona", "EU"⟩),
   ("fi1.node.check-host.net", ⟨"Finland", "Helsinki", "EU"⟩),
   ("fr1.node.check-host.net", ⟨"France", "Roubaix", "EU"⟩),
   ("fr2.node.check-host.net", ⟨"France", "Paris", "EU"⟩),
   ("hk1.node.check-host.net", ⟨"Hong Kong", "Hong Kong", "AS"⟩),
   ("hu1.node.check-host.net", ⟨"Hungary", "Nyiregyhaza", "EU"⟩),
   ("il1.node.check-host.net", ⟨"Israel", "Tel Aviv", "AS"⟩),
   ("il2.node.check-host.net", ⟨"Israel", "Netanya", "AS"⟩),
   ("in1.node.check-host.net", ⟨"India", "Mumbai", "AS"⟩),
   ("in2.node.check-host.net", ⟨"India", "Chennai", "AS"⟩),
   ("ir1.node.check-host.net", ⟨"Iran", "Tehran", "AS"⟩),
   ("ir3.node.check-host.net", ⟨"Iran", "Mashhad", "AS"⟩),
   ("ir5.node.check-host.net", ⟨"Iran", "Esfahan", "AS"⟩),
   ("ir6.node.check-host.net", ⟨"Iran", "Karaj", "AS"⟩),
   ("it2.node.check-host.net", ⟨"Italy", "Milan", "EU"⟩),
   ("jp1.node.check-host.net", ⟨"Japan", "Tokyo", "AS"⟩),
   ("kz1.node.check-host.net", ⟨"Kazakhstan", "Karaganda", "AS"⟩),
   ("lt1.node.check-host.net", ⟨"Lithuania", "Vilnius", "EU"⟩),
   ("md1.node.check-host.net", ⟨"Moldova", "Chisinau", "EU"⟩),
   ("nl1.node.check-host.net", ⟨"Netherlands", "Amsterdam", "EU"⟩),
   ("nl2.node.check-host.net", ⟨"Netherlands", "Meppel", "EU"⟩),
   ("pl1.node.check-host.net", ⟨"Poland", "Poznan", "EU"⟩),
   ("pl2.node.check-host.net", ⟨"Poland", "Warsaw", "EU"⟩),
   ("pt1.node.check-host.net", ⟨"Portugal", "Viana", "EU"⟩),
   ("rs1.node.check-host.net", ⟨"Serbia", "Belgrade", "EU"⟩),
   ("ru1.node.check-host.net", ⟨"Russia", "Moscow", "EU-EAST"⟩),
   ("ru2.node.check-host.net", ⟨"Russia", "Moscow", "EU-EAST"⟩),
   ("ru3.node.check-host.net", ⟨"Russia", "Saint Petersburg", "EU-EAST"⟩),
   ("ru4.node.check-host.net", ⟨"Russia", "Ekaterinburg", "EU-EAST"⟩),
   ("se1.node.check-host.net", ⟨"Sweden", "Tallberg", "EU"⟩),
   ("tr1.node.check-host.net", ⟨"Turkey", "Istanbul", "AS"⟩),
   ("tr2.node.check-host.net", ⟨"Turkey", "Gebze", "AS"⟩),
   ("ua1.node.check-host.net", ⟨"Ukraine", "Khmelnytskyi", "EU-EAST"⟩),
   ("ua2.node.check-host.net", ⟨"Ukraine", "Kyiv", "EU-EAST"⟩),
   ("ua3.node.check-host.net", ⟨"Ukraine", "SpaceX Starlink", "EU-EAST"⟩),
   ("uk1.node.check-host.net", ⟨"UK", "Coventry", "EU"⟩),
   ("us1.node.check-host.net", ⟨"USA", "Los Angeles", "NA"⟩),
   ("us2.node.check-host.net", ⟨"USA", "Dallas", "NA"⟩),
   ("us3.node.check-host.net", ⟨"USA", "Atlanta", "NA"⟩),
   ("vn1.node.check-host.net", ⟨"Vietnam", "Ho Chi Minh City", "AS"⟩)]

/-- Lookup of a vantage-point identifier in `NODE_DETAILS`. -/
def findNode (id : String) : Option NodeInfo :=
  (NODE_DETAILS.find? (fun kv => kv.1 == id)).map (fun kv => kv.2)

/-- Python `node in NODE_DETAILS`. -/
def nodeKnown (id : String) : Bool :=
  (findNode id).isSome

/-- The display label built by every normalizer:
the f-string rendering country followed by the city in parentheses. -/
def nodeLabel (id : String) : String :=
  match findNode id with
  | some info => info.country ++ " (" ++ info.city ++ ")"
  | none => ""

/-- A normalized per-vantage-point record: a Python dict literal, embedded
as an association list in the insertion order the source writes it. -/
abbrev NormRec := List (String × JVal)

/-- Count of attempts whose status field equals `"OK"`
(the generator inside `sum(1 for r in ping_result if r[0] == "OK")`);
indexing a malformed attempt raises. -/
def countOK : List JVal → Except String Nat
  | [] => Except.ok 0
  | r :: rest => do
    let r0 ← pyIndex r 0
    let n ← countOK rest
    pure (if eqOK r0 then n + 1 else n)

/-- The list comprehension `[r[1] * 1000 for r in ping_result if r[0] == "OK"]`. -/
def rttsOf : List JVal → Except String (List JVal)
  | [] => Except.ok []
  | r :: rest => do
    let r0 ← pyIndex r 0
    if eqOK r0 then
      let r1 ← pyIndex r 1
      let v ← pyMul1000 r1
      let tail ← rttsOf rest
      pure (v :: tail)
    else
      rttsOf rest

/-- Per-vantage-point interpretation done inside `NetworkTester.ping`
(source lines 364-389) for one raw node value. -/
def pingNode (v : JVal) : Except String NormRec :=
  match v with
  | JVal.arr (w :: _) =>
    match w with
    | JVal.arr ws =>
      if ws.length > 1 then do
        let successful ← countOK ws
        let rtts ← rttsOf ws
        let total := ws.length
        let avg ← if rtts.isEmpty then pure (0 : ℚ) else do
          let s ← pySum rtts
          pure (s / (rtts.length : ℚ))
        let mn ← if rtts.isEmpty then pure (0 : ℚ) else pyMinQ rtts
        let mx ← if rtts.isEmpty then pure (0 : ℚ) else pyMaxQ rtts
        let loss : ℚ :=
          if 0 < total then (((total : ℚ) - (successful : ℚ)) / (total : ℚ)) * 100 else 100
        let w0 := ws.headD JVal.null
        let l0 ← pyLen w0
        let ip ← if 2 < l0 then pyIndex w0 2 else pure JVal.null
        pure [("success", JVal.bool (decide (0 < successful))),
              ("avg_latency", JVal.num avg),
              ("min_latency", JVal.num mn),
              ("max_latency", JVal.num mx),
              ("packet_loss", JVal.num loss),
              ("ip", ip)]
      else
        Except.ok [("success", JVal.bool false), ("error", JVal.str "Invalid ping response")]
    | _ => Except.ok [("success", JVal.bool false), ("error", JVal.str "Invalid ping response")]
  | _ => Except.ok [("success", JVal.bool false), ("error", JVal.str "No ping data")]

/-- Per-vantage-point interpretation done inside `NetworkTester.http_check`
(source lines 416-441): the first element must be a list of length above 3. -/
def httpNode (v : JVal) : Except String NormRec :=
  match v with
  | JVal.arr (w :: _) =>
    match w with
    | JVal.arr (a :: b :: c :: d :: rest) => do
      let rt ← pyMul1000 b
      pure [("success", JVal.bool (eqOne a)),
            ("status_code", d),
            ("status_msg", c),
            ("response_time", rt),
            ("ip", rest.headD JVal.null)]
    | _ => Except.ok [("success", JVal.bool false), ("error", JVal.str "Invalid HTTP response")]
  | _ => Except.ok [("success", JVal.bool false), ("error", JVal.str "No HTTP data")]

/-- Per-vantage-point interpretation done inside `NetworkTester.tcp_check`
(source lines 465-485). -/
def tcpNode (v : JVal) : Except String NormRec :=
  match v with
  | JVal.arr (w :: _) =>
    match w with
    | JVal.arr (a :: b :: rest) => do
      let ct ← pyMul1000 b
      pure [("success", JVal.bool (eqOne a)),
            ("connect_time", ct),
            ("ip", rest.headD JVal.null)]
    | _ => Except.ok [("success", JVal.bool false), ("error", JVal.str "Invalid TCP response")]
  | _ => Except.ok [("success", JVal.bool false), ("error", JVal.str "No TCP data")]

/-- Per-vantage-point interpretation done inside `NetworkTester.udp_check`
(source lines 510-530). -/
def udpNode (v : JVal) : Except String NormRec :=
  match v with
  | JVal.arr (w :: _) =>
    match w with
    | JVal.arr (a :: b :: rest) => do
      let rt ← pyMul1000 b
      pure [("success", JVal.bool (eqOne a)),
            ("response_time", rt),
            ("ip", rest.headD JVal.null)]
    | _ => Except.ok [("success", JVal.bool false), ("error", JVal.str "Invalid UDP response")]
  | _ => Except.ok [("success", JVal.bool false), ("error", JVal.str "No UDP data")]

/-- The comprehension `[record[1] for record in dns_result if len(record) > 1]`. -/
def dnsAddresses : List JVal → Except String (List JVal)
  | [] => Except.ok []
  | r :: rest => do
    let l ← pyLen r
    if 1 < l then
      let a ← pyIndex r 1
      let tail ← dnsAddresses rest
      pure (a :: tail)
    else
      dnsAddresses rest

/-- Per-vantage-point interpretation done inside `NetworkTester.dns_check`
(source lines 555-575); addresses are collected before the resolution time
is read, matching the evaluation order of the source. -/
def dnsNode (v : JVal) : Except String NormRec :=
  match v with
  | JVal.arr (w :: _) =>
    match w with
    | JVal.arr (w0 :: ws) => do
      let addrs ← dnsAddresses (w0 :: ws)
      let c ← pyIndex w0 0
      let rt ← if pyTruthy c then pyMul1000 c else pure (JVal.num 0)
      pure [("success", JVal.bool true),
            ("resolution_time", rt),
            ("addresses", JVal.arr addrs)]
    | _ => Except.ok [("success", JVal.bool false), ("error", JVal.str "Invalid DNS response")]
  | _ => Except.ok [("success", JVal.bool false), ("error", JVal.str "No DNS data")]

/-- The five check types served by the client. -/
inductive CheckType where
  | ping
  | http
  | tcp
  | udp
  | dns
deriving DecidableEq

/-- Dispatch to the per-vantage-point interpretation of one check type. -/
def perNode : CheckType → JVal → Except String NormRec
  | CheckType.ping => pingNode
  | CheckType.http => httpNode
  | CheckType.tcp => tcpNode
  | CheckType.udp => udpNode
  | CheckType.dns => dnsNode

/-- The `No <Type> data` message of each check type. -/
def noDataMsg : CheckType → String
  | CheckType.ping => "No ping data"
  | CheckType.http => "No HTTP data"
  | CheckType.tcp => "No TCP data"
  | CheckType.udp => "No UDP data"
  | CheckType.dns => "No DNS data"

/-- The `Invalid <Type> response` message of each check type. -/
def invalidMsg : CheckType → String
  | CheckType.ping => "Invalid ping response"
  | CheckType.http => "Invalid HTTP response"
  | CheckType.tcp => "Invalid TCP response"
  | CheckType.udp => "Invalid UDP response"
  | CheckType.dns => "Invalid DNS response"

/-- Minimum length the first element of a node value must have to pass the
per-check-type shape test (`len(x_result) > 1`, `> 3`, `> 0`). -/
def minFirstLen : CheckType → Nat
  | CheckType.ping => 2
  | CheckType.http => 4
  | CheckType.tcp => 2
  | CheckType.udp => 2
  | CheckType.dns => 1

/-- A raw result payload: the JSON object returned by the result endpoint,
as an association list in JSON order (Python dict keys are unique). -/
abbrev Payload := List (String × JVal)

/-- The normalized result mapping, an insertion-ordered Python dict. -/
abbrev ResultMap := List (String × NormRec)

/-- Keys of an association list, in order. -/
def keysOf {α : Type} (d : List (String × α)) : List String :=
  d.map Prod.fst

/-- Python dict assignment `d[k] = v`: replaces in place when the key is
present, appends otherwise. -/
def dictInsert {α : Type} (d : List (String × α)) (k : String) (v : α) :
    List (String × α) :=
  if k ∈ keysOf d then d.map (fun kv => if kv.1 = k then (k, v) else kv)
  else d ++ [(k, v)]

/-- Python `d[k]` / `k in d` combined: the value stored under a key. -/
def lookupKey {α : Type} (d : List (String × α)) (k : String) : Option α :=
  (d.find? (fun kv => kv.1 == k)).map (fun kv => kv.2)

/-- The shared per-node loop of the five normalizers: iterate over the raw
payload, skip identifiers missing from `NODE_DETAILS`, interpret the node
value and store the record under the display label.  A Python exception
raised by the interpretation propagates and aborts the whole loop. -/
def normLoop (f : JVal → Except String NormRec) :
    Payload → ResultMap → Except String ResultMap
  | [], acc => Except.ok acc
  | (k, v) :: rest, acc =>
    if nodeKnown k then
      match f v with
      | Except.error e => Except.error e
      | Except.ok r => normLoop f rest (dictInsert acc (nodeLabel k) r)
    else
      normLoop f rest acc

/-- What a normalizer returns: either the early error-dict echo
(when the API result carries an `error` key) or the results dict. -/
inductive NormOut where
  | errOut (v : JVal)
  | results (rs : ResultMap)

/-- Body shared by the five `NetworkTester` normalizers, applied to the
payload obtained from the API (`api_result`). -/
def normalizeWith (f : JVal → Except String NormRec) (p : Payload) :
    Except String NormOut :=
  match lookupKey p "error" with
  | some v => Except.ok (NormOut.errOut v)
  | none => (normLoop f p []).map NormOut.results

/-- One normalizer per check type. -/
def normalizeOf (c : CheckType) (p : Payload) : Except String NormOut :=
  normalizeWith (perNode c) p

namespace NetworkTester

/-- Normalization performed by `NetworkTester.ping` on the API result. -/
def ping : Payload → Except String NormOut := normalizeOf CheckType.ping

/-- Normalization performed by `NetworkTester.http_check`. -/
def http_check : Payload → Except String NormOut := normalizeOf CheckType.http

/-- Normalization performed by `NetworkTester.tcp_check`. -/
def tcp_check : Payload → Except String NormOut := normalizeOf CheckType.tcp

/-- Normalization performed by `NetworkTester.udp_check`. -/
def udp_check : Payload → Except String NormOut := normalizeOf CheckType.udp

/-- Normalization performed by `NetworkTester.dns_check`. -/
def dns_check : Payload → Except String NormOut := normalizeOf CheckType.dns

end NetworkTester

/-- `MAX_RETRIES` from the global configuration. -/
def MAX_RETRIES : Nat := 3

/-- `RESULT_WAIT_TIME` (seconds slept before every poll), as a rational. -/
def RESULT_WAIT_TIME : ℚ := 10

/-- `MAX_WAIT_TIME` (cumulative poll ceiling in seconds), as a rational. -/
def MAX_WAIT_TIME : ℚ := 30

/-- What one poll iteration observes: either a JSON payload from the result
endpoint or a transport failure (`requests.exceptions.RequestException`). -/
inductive PollResp where
  | ok (payload : Payload)
  | fail (msg : String)

/-- One iteration of the poll loop as seen from outside: the response and
the elapsed time (`time.time() - start_time`) the code would read right
after handling it. -/
structure PollStep where
  resp : PollResp
  tAfter : ℚ

/-- Result of `CheckHostAPI._get_check_results`: the raw payload, one of
the two error dicts, or `pending` when the supplied iteration
trace is shorter than the run (impossible for traces respecting the
sleep cadence once three iterations are supplied). -/
inductive PollOutcome where
  | result (p : Payload)
  | err (msg : String)
  | pending

/-- The completion test `all(v is not None for v in result_data.values())`. -/
def allResponded (p : Payload) : Bool :=
  p.all (fun kv => !isNull kv.2)

/-- `CheckHostAPI._get_check_results` (source lines 134-159), driven by the
trace of poll iterations; the first argument is the current `elapsed`
value (initially `0`).  A complete payload returns immediately; an
incomplete one updates `elapsed` and retries while `elapsed` is below the
ceiling; a transport failure that lands at or past the ceiling returns the
transport-timeout error, and falling out of the `while` loop returns the
incomplete-results timeout error. -/
def getCheckResults : ℚ → List PollStep → PollOutcome
  | e, [] =>
    if e < MAX_WAIT_TIME then PollOutcome.pending
    else PollOutcome.err "Timeout waiting for all nodes to respond"
  | e, s :: rest =>
    if e < MAX_WAIT_TIME then
      match s.resp with
      | PollResp.ok payload =>
        if allResponded payload then PollOutcome.result payload
        else getCheckResults s.tAfter rest
      | PollResp.fail msg =>
        if MAX_WAIT_TIME ≤ s.tAfter then
          PollOutcome.err ("Timeout waiting for results: " ++ msg)
        else getCheckResults s.tAfter rest
    else PollOutcome.err "Timeout waiting for all nodes to respond"

/-- Number of loop iterations the run consumes; each iteration performs
exactly one `time.sleep(RESULT_WAIT_TIME)` followed by one poll request. -/
def pollIterations : ℚ → List PollStep → Nat
  | _, [] => 0
  | e, s :: rest =>
    if e < MAX_WAIT_TIME then
      match s.resp with
      | PollResp.ok payload =>
        if allResponded payload then 1 else 1 + pollIterations s.tAfter rest
      | PollResp.fail _ =>
        if MAX_WAIT_TIME ≤ s.tAfter then 1 else 1 + pollIterations s.tAfter rest
    else 0

/-- Timing constraint linking a trace to the code: each iteration sleeps
`RESULT_WAIT_TIME` seconds before its request, so the elapsed value read
after it is at least the previous one plus the sleep interval. -/
def validTiming : ℚ → List PollStep → Bool
  | _, [] => true
  | e, s :: rest => decide (e + RESULT_WAIT_TIME ≤ s.tAfter) && validTiming s.tAfter rest

/-- A poll response that delivers a non-empty payload in which every
vantage point is still `null`. -/
def allNullStep (s : PollStep) : Bool :=
  match s.resp with
  | PollResp.ok p => !p.isEmpty && p.all (fun kv => isNull kv.2)
  | PollResp.fail _ => false

/-- What one submission attempt observes: a transport failure (raised
`RequestException`, including a non-2xx status), or a JSON response whose
`request_id` field is missing or holds the given string. -/
inductive SubmitResp where
  | transportFail (msg : String)
  | respNoId
  | respWithId (id : String)

/-- Result of the submission retry loop: proceed to polling with a check
id, return an error dict, or `pending` when the supplied trace
is shorter than the three attempts the loop can make. -/
inductive SubmitOutcome where
  | proceed (id : String)
  | err (msg : String)
  | pending

/-- The retry loop shared verbatim by `CheckHostAPI.check_ping`,
`check_http`, `check_tcp`, `check_udp` and `check_dns` (source lines
171-191 and their four copies), driven by the per-attempt observations.
Returns the outcome together with the total seconds slept in `time.sleep(2)`
backoffs and the number of attempts made.  A falsy `request_id` (absent or
empty) retries immediately; only the transport-failure branch sleeps. -/
def submitGo : Nat → List SubmitResp → SubmitOutcome × Nat × Nat
  | _, [] => (SubmitOutcome.pending, 0, 0)
  | attempt, r :: rest =>
    match r with
    | SubmitResp.respWithId s =>
      if s == "" then
        if attempt == MAX_RETRIES - 1 then
          (SubmitOutcome.err "No check ID received after retries", 0, 1)
        else
          let t := submitGo (attempt + 1) rest
          (t.1, t.2.1, t.2.2 + 1)
      else (SubmitOutcome.proceed s, 0, 1)
    | SubmitResp.respNoId =>
      if attempt == MAX_RETRIES - 1 then
        (SubmitOutcome.err "No check ID received after retries", 0, 1)
      else
        let t := submitGo (attempt + 1) rest
        (t.1, t.2.1, t.2.2 + 1)
    | SubmitResp.transportFail m =>
      if attempt == MAX_RETRIES - 1 then
        (SubmitOutcome.err ("API request failed after retries: " ++ m), 0, 1)
      else
        let t := submitGo (attempt + 1) rest
        (t.1, t.2.1 + 2, t.2.2 + 1)

/-- Submission of one check of the given type (the check type only selects
the endpoint URL; the retry logic is identical across the five methods). -/
def checkSubmit (_c : CheckType) (resps : List SubmitResp) :
    SubmitOutcome × Nat × Nat :=
  submitGo 0 resps

/-- An attempt that does not yield a usable job handle: transport failure,
missing `request_id`, or a falsy (empty) `request_id`. -/
def notSubmitted : SubmitResp → Bool
  | SubmitResp.transportFail _ => true
  | SubmitResp.respNoId => true
  | SubmitResp.respWithId s => s == ""

/-- The error message the loop returns when its last attempt was the given
observation. -/
def lastErrMsg : SubmitResp → String
  | SubmitResp.transportFail m => "API request failed after retries: " ++ m
  | _ => "No check ID received after retries"

/-- Number of transport failures in a list of attempt observations (each
one is followed by a 2-second backoff when it is not the final attempt). -/
def backoffCount (rs : List SubmitResp) : Nat :=
  (rs.filter (fun r => match r with
    | SubmitResp.transportFail _ => true
    | _ => false)).length

/-! ## Dictionary and loop lemmas -/

theorem keysOf_map_update {α : Type} (d : List (String × α)) (k : String) (v : α) :
    keysOf (d.map (fun kv => if kv.1 = k then (k, v) else kv)) = keysOf d := by
  induction d with
  | nil => rfl
  | cons kv rest ih =>
    simp only [List.map_cons, keysOf] at ih ⊢
    by_cases h : kv.1 = k
    · simp [h, ih]
    · simp [h, ih]

theorem keysOf_dictInsert {α : Type} (d : List (String × α)) (k : String) (v : α) :
    keysOf (dictInsert d k v) = if k ∈ keysOf d then keysOf d else keysOf d ++ [k] := by
  unfold dictInsert
  by_cases h : k ∈ keysOf d
  · rw [if_pos h, if_pos h, keysOf_map_update]
  · rw [if_neg h, if_neg h]
    simp [keysOf]

theorem mem_keysOf_dictInsert {α : Type} (d : List (String × α)) (k l : String) (v : α) :
    l ∈ keysOf (dictInsert d k v) ↔ l ∈ keysOf d ∨ l = k := by
  rw [keysOf_dictInsert]
  by_cases h : k ∈ keysOf d
  · rw [if_pos h]
    constructor
    · exact Or.inl
    · rintro (hl | rfl)
      · exact hl
      · exact h
  · rw [if_neg h]
    simp

theorem nodup_keysOf_dictInsert {α : Type} (d : List (String × α)) (k : String) (v : α)
    (hd : (keysOf d).Nodup) : (keysOf (dictInsert d k v)).Nodup := by
  rw [keysOf_dictInsert]
  by_cases h : k ∈ keysOf d
  · rwa [if_pos h]
  · rw [if_neg h]
    simp [List.nodup_append, hd, h]

theorem normLoop_ok_keys (f : JVal → Except String NormRec) :
    ∀ (p : Payload) (acc res : ResultMap), normLoop f p acc = Except.ok res →
    ∀ l, l ∈ keysOf res ↔
      (l ∈ keysOf acc ∨ ∃ kv ∈ p, nodeKnown kv.1 = true ∧ l = nodeLabel kv.1) := by
  intro p
  induction p with
  | nil =>
    intro acc res h l
    simp only [normLoop, Except.ok.injEq] at h
    subst h
    simp
  | cons kv rest ih =>
    intro acc res h l
    obtain ⟨k, v⟩ := kv
    simp only [normLoop] at h
    by_cases hk : nodeKnown k = true
    · rw [if_pos hk] at h
      cases hf : f v with
      | error e => simp [hf] at h
      | ok r =>
        simp only [hf] at h
        rw [ih (dictInsert acc (nodeLabel k) r) res h l, mem_keysOf_dictInsert]
        constructor
        · rintro ((hacc | rfl) | ⟨kv2, hkv2, hknown, rfl⟩)
          · exact Or.inl hacc
          · exact Or.inr ⟨(k, v), by simp, hk, rfl⟩
          · exact Or.inr ⟨kv2, by simp [hkv2], hknown, rfl⟩
        · rintro (hacc | ⟨kv2, hkv2, hknown, rfl⟩)
          · exact Or.inl (Or.inl hacc)
          · rcases List.mem_cons.mp hkv2 with heq | hmem
            · subst heq
              exact Or.inl (Or.inr rfl)
            · exact Or.inr ⟨kv2, hmem, hknown, rfl⟩
    · rw [if_neg hk] at h
      rw [ih acc res h l]
      constructor
      · rintro (hacc | ⟨kv2, hkv2, hknown, rfl⟩)
        · exact Or.inl hacc
        · exact Or.inr ⟨kv2, by simp [hkv2], hknown, rfl⟩
      · rintro (hacc | ⟨kv2, hkv2, hknown, rfl⟩)
        · exact Or.inl hacc
        · rcases List.mem_cons.mp hkv2 with heq | hmem
          · subst heq
            exact absurd hknown hk
          · exact Or.inr ⟨kv2, hmem, hknown, rfl⟩

theorem normLoop_ok_nodup (f : JVal → Except String NormRec) :
    ∀ (p : Payload) (acc res : ResultMap), (keysOf acc).Nodup →
    normLoop f p acc = Except.ok res → (keysOf res).Nodup := by
  intro p
  induction p with
  | nil =>
    intro acc res hnd h
    simp only [normLoop, Except.ok.injEq] at h
    subst h
    exact hnd
  | cons kv rest ih =>
    intro acc res hnd h
    obtain ⟨k, v⟩ := kv
    simp only [normLoop] at h
    by_cases hk : nodeKnown k = true
    · rw [if_pos hk] at h
      cases hf : f v with
      | error e => simp [hf] at h
      | ok r =>
        simp only [hf] at h
        exact ih _ res (nodup_keysOf_dictInsert _ _ _ hnd) h
    · rw [if_neg hk] at h
      exact ih _ res hnd h

theorem normLoop_total (f : JVal → Except String NormRec) :
    ∀ p : Payload, (∀ kv ∈ p, nodeKnown kv.1 = true → ∃ r, f kv.2 = Except.ok r) →
    ∀ acc, ∃ res, normLoop f p acc = Except.ok res := by
  intro p
  induction p with
  | nil => exact fun _ acc => ⟨acc, rfl⟩
  | cons kv rest ih =>
    intro hsafe acc
    obtain ⟨k, v⟩ := kv
    simp only [normLoop]
    by_cases hk : nodeKnown k = true
    · rw [if_pos hk]
      obtain ⟨r, hr⟩ := hsafe (k, v) (by simp) hk
      simp only [hr]
      exact ih (fun kv2 h2 => hsafe kv2 (by simp [h2])) _
    · rw [if_neg hk]
      exact ih (fun kv2 h2 => hsafe kv2 (by simp [h2])) _

/-! ## Claim C1 -/

/-- C1: for every raw payload (without the reserved `error` key the
methods echo back) and each of the five normalizers, every vantage-point
identifier occurring in the payload that is also a key of `NODE_DETAILS`
appears exactly once in the normalized result under its display label
`country (city)`, and every key of the normalized result is the display
label of such an identifier, so identifiers absent from the reference
table contribute no entry. -/
theorem claim_C1_known_nodes_once :
    ∀ (c : CheckType) (p : Payload) (res : ResultMap),
    normalizeOf c p = Except.ok (NormOut.results res) →
    (∀ kv ∈ p, nodeKnown kv.1 = true → (keysOf res).count (nodeLabel kv.1) = 1) ∧
    (∀ l ∈ keysOf res, ∃ kv ∈ p, nodeKnown kv.1 = true ∧ l = nodeLabel kv.1) := by
  intro c p res h
  unfold normalizeOf normalizeWith at h
  cases herr : lookupKey p "error" with
  | some v =>
    rw [herr] at h
    simp at h
  | none =>
    rw [herr] at h
    cases hloop : normLoop (perNode c) p [] with
    | error e =>
      rw [hloop] at h
      simp [Except.map] at h
    | ok res2 =>
      rw [hloop] at h
      simp only [Except.map, Except.ok.injEq, NormOut.results.injEq] at h
      subst h
      have hkeys := normLoop_ok_keys (perNode c) p [] res2 hloop
      have hnd := normLoop_ok_nodup (perNode c) p [] res2 (by simp [keysOf]) hloop
      constructor
      · intro kv hkv hknown
        have hmem : nodeLabel kv.1 ∈ keysOf res2 := by
          rw [hkeys (nodeLabel kv.1)]
          exact Or.inr ⟨kv, hkv, hknown, rfl⟩
        exact List.count_eq_one_of_mem hnd hmem
      · intro l hl
        rcases (hkeys l).mp hl with hacc | hex
        · simp [keysOf] at hacc
        · exact hex

/-- Witness payload for C1. -/
def c1PayloadW : Payload :=
  [("de1.node.check-host.net", JVal.null), ("unknown.example", JVal.null)]

/-- Witness result for C1. -/
def c1ResW : ResultMap :=
  [("Germany (Nuremberg)", [("success", JVal.bool false), ("error", JVal.str "No ping data")])]

/-- Witness for C1 at a concrete payload containing one known and one
unknown vantage point. -/
theorem claim_C1_known_nodes_once_witness :
    (keysOf c1ResW).count (nodeLabel "de1.node.check-host.net") = 1 :=
  (claim_C1_known_nodes_once CheckType.ping c1PayloadW c1ResW rfl).1
    ("de1.node.check-host.net", JVal.null) (by simp [c1PayloadW]) rfl

/-! ## Claims C6, C7: concrete normalization examples -/

/-- C6: ping normalization of a known vantage point whose raw entry holds
the attempt list `[["OK",0.1,"1.2.3.4"],["TIMEOUT"],["OK",0.3,"1.2.3.4"]]`
yields success, packet loss `100/3`, average latency `200` ms, minimum
`100` ms, maximum `300` ms (aggregated over the `"OK"` attempts only,
seconds scaled by 1000), and IP `1.2.3.4`. -/
theorem claim_C6_ping_example :
    NetworkTester.ping
      [("de1.node.check-host.net",
        JVal.arr [JVal.arr [JVal.arr [JVal.str "OK", JVal.num (1/10), JVal.str "1.2.3.4"],
                            JVal.arr [JVal.str "TIMEOUT"],
                            JVal.arr [JVal.str "OK", JVal.num (3/10), JVal.str "1.2.3.4"]]])] =
      Except.ok (NormOut.results
        [("Germany (Nuremberg)",
          [("success", JVal.bool true),
           ("avg_latency", JVal.num 200),
           ("min_latency", JVal.num 100),
           ("max_latency", JVal.num 300),
           ("packet_loss", JVal.num (100/3)),
           ("ip", JVal.str "1.2.3.4")])]) := by with_unfolding_all rfl

/-- C7: HTTP normalization of a known vantage point whose raw entry has
first element `[1, 0.25, "OK", 200, "5.6.7.8"]`, yielding success,
response time `250` ms, status code `200` and IP `5.6.7.8`. -/
theorem claim_C7_http_example :
    NetworkTester.http_check
      [("de1.node.check-host.net",
        JVal.arr [JVal.arr [JVal.num 1, JVal.num (1/4), JVal.str "OK",
                            JVal.num 200, JVal.str "5.6.7.8"]])] =
      Except.ok (NormOut.results
        [("Germany (Nuremberg)",
          [("success", JVal.bool true),
           ("status_code", JVal.num 200),
           ("status_msg", JVal.str "OK"),
           ("response_time", JVal.num 250),
           ("ip", JVal.str "5.6.7.8")])]) := by with_unfolding_all rfl

/-! ## Claim C10: empty first poll payload -/

/-- C10: a first poll response carrying an empty mapping satisfies the
all-responded check vacuously, so the poll loop returns the empty payload
at once (whatever follows in the trace), and each of the five normalizers
maps the empty payload to an empty normalized result. -/
theorem claim_C10_empty_payload :
    ∀ (t : ℚ) (rest : List PollStep),
    getCheckResults 0 (PollStep.mk (PollResp.ok []) t :: rest) = PollOutcome.result [] ∧
    NetworkTester.ping [] = Except.ok (NormOut.results []) ∧
    NetworkTester.http_check [] = Except.ok (NormOut.results []) ∧
    NetworkTester.tcp_check [] = Except.ok (NormOut.results []) ∧
    NetworkTester.udp_check [] = Except.ok (NormOut.results []) ∧
    NetworkTester.dns_check [] = Except.ok (NormOut.results []) := by
  intro t rest
  refine ⟨?_, rfl, rfl, rfl, rfl, rfl⟩
  norm_num [getCheckResults, allResponded, MAX_WAIT_TIME]

/-! ## Claim C5: completion on first poll -/

/-- C5: when every vantage point in the first poll response is non-null,
the loop returns that payload immediately after the first poll, having
performed exactly one sleep/poll iteration, regardless of what later
iterations would have observed. -/
theorem claim_C5_first_poll_complete :
    ∀ (p : Payload) (t : ℚ) (rest : List PollStep),
    allResponded p = true →
    getCheckResults 0 (PollStep.mk (PollResp.ok p) t :: rest) = PollOutcome.result p ∧
    pollIterations 0 (PollStep.mk (PollResp.ok p) t :: rest) = 1 := by
  intro p t rest h
  constructor
  · norm_num [getCheckResults, MAX_WAIT_TIME, h]
  · norm_num [pollIterations, MAX_WAIT_TIME, h]

/-- Witness for C5 at a one-node payload that has responded. -/
theorem claim_C5_first_poll_complete_witness :
    getCheckResults 0 [PollStep.mk (PollResp.ok [("x", JVal.str "ok")]) 10] =
      PollOutcome.result [("x", JVal.str "ok")] ∧
    pollIterations 0 [PollStep.mk (PollResp.ok [("x", JVal.str "ok")]) 10] = 1 :=
  claim_C5_first_poll_complete [("x", JVal.str "ok")] 10 [] rfl

/-! ## Claim C9: empty and too-short entries -/

/-- C9: for every check type and node value, a `null` or empty-list value
normalizes to exactly the `No <Type> data` failure record, and a non-empty
list whose first element is a list shorter than that check type expected
shape normalizes to exactly the `Invalid <Type> response` failure record. -/
theorem claim_C9_no_data_and_invalid :
    ∀ (c : CheckType) (v : JVal),
    ((v = JVal.null ∨ v = JVal.arr []) →
      perNode c v =
        Except.ok [("success", JVal.bool false), ("error", JVal.str (noDataMsg c))]) ∧
    (∀ (ws rest : List JVal), v = JVal.arr (JVal.arr ws :: rest) →
      ws.length < minFirstLen c →
      perNode c v =
        Except.ok [("success", JVal.bool false), ("error", JVal.str (invalidMsg c))]) := by
  intro c v
  constructor
  · rintro (rfl | rfl) <;> cases c <;> rfl
  · rintro ws rest rfl hlen
    cases c
    case ping =>
      simp only [minFirstLen] at hlen
      simp only [perNode, pingNode, invalidMsg]
      rw [if_neg (by omega)]
    case http =>
      simp only [minFirstLen] at hlen
      rcases ws with _ | ⟨a, _ | ⟨b, _ | ⟨c2, _ | ⟨d, ws2⟩⟩⟩⟩
      · rfl
      · rfl
      · rfl
      · rfl
      · simp only [List.length_cons] at hlen
        omega
    case tcp =>
      simp only [minFirstLen] at hlen
      rcases ws with _ | ⟨a, _ | ⟨b, ws2⟩⟩
      · rfl
      · rfl
      · simp only [List.length_cons] at hlen
        omega
    case udp =>
      simp only [minFirstLen] at hlen
      rcases ws with _ | ⟨a, _ | ⟨b, ws2⟩⟩
      · rfl
      · rfl
      · simp only [List.length_cons] at hlen
        omega
    case dns =>
      simp only [minFirstLen] at hlen
      rcases ws with _ | ⟨a, ws2⟩
      · rfl
      · simp only [List.length_cons] at hlen
        omega

/-- Witness for C9: the empty case for ping and the too-short case for
HTTP at concrete inputs. -/
theorem claim_C9_no_data_and_invalid_witness :
    perNode CheckType.ping JVal.null =
      Except.ok [("success", JVal.bool false),
                 ("error", JVal.str (noDataMsg CheckType.ping))] ∧
    perNode CheckType.http (JVal.arr [JVal.arr [JVal.num 1]]) =
      Except.ok [("success", JVal.bool false),
                 ("error", JVal.str (invalidMsg CheckType.http))] :=
  ⟨(claim_C9_no_data_and_invalid CheckType.ping JVal.null).1 (Or.inl rfl),
   (claim_C9_no_data_and_invalid CheckType.http (JVal.arr [JVal.arr [JVal.num 1]])).2
     [JVal.num 1] [] rfl (by decide)⟩

/-! ## Claim C8: HTTP IP field -/

/-- C8: for every HTTP raw entry whose first element is long enough to be
valid, the normalized IP metric is field 4 of that element (counting
fields from zero, as the shape `[status, time, message, code, ip]` does)
when present, and `None` otherwise. -/
theorem claim_C8_http_ip_field :
    ∀ (ws rest : List JVal) (r : NormRec),
    3 < ws.length →
    httpNode (JVal.arr (JVal.arr ws :: rest)) = Except.ok r →
    lookupKey r "ip" = some (ws.getD 4 JVal.null) := by
  intro ws rest r hlen h
  match ws, hlen with
  | a :: b :: c :: d :: ws2, _ =>
    simp only [httpNode] at h
    cases hb : pyMul1000 b with
    | error e =>
      simp [hb, Bind.bind, Except.bind] at h
    | ok rt =>
      simp only [hb, Bind.bind, Except.bind, pure, Except.pure, Except.ok.injEq] at h
      subst h
      cases ws2 <;> rfl

/-- Witness for C8 at a concrete entry with no fifth field. -/
theorem claim_C8_http_ip_field_witness :
    lookupKey [("success", JVal.bool true),
               ("status_code", JVal.num 404),
               ("status_msg", JVal.str "NF"),
               ("response_time", JVal.num 2000),
               ("ip", JVal.null)] "ip" =
      some ([JVal.num 1, JVal.num 2, JVal.str "NF", JVal.num 404].getD 4 JVal.null) :=
  claim_C8_http_ip_field [JVal.num 1, JVal.num 2, JVal.str "NF", JVal.num 404] []
    [("success", JVal.bool true), ("status_code", JVal.num 404),
     ("status_msg", JVal.str "NF"), ("response_time", JVal.num 2000),
     ("ip", JVal.null)] (by decide) (by with_unfolding_all rfl)

/-! ## Claim C3: the submission retry loop -/

/-- Counterexample to C3 as stated: when all three submission attempts
return a response lacking a job handle, the loop makes its 3 attempts and
returns the no-handle error, but sleeps 0 seconds in total, not the 2+2
seconds a 2-second backoff between consecutive attempts would give: the
`continue` on the missing-handle path has no `time.sleep`. -/
theorem claim_C3_counterexample :
    checkSubmit CheckType.ping
      [SubmitResp.respNoId, SubmitResp.respNoId, SubmitResp.respNoId] =
      (SubmitOutcome.err "No check ID received after retries", 0, 3) ∧
    (0 : Nat) ≠ 2 + 2 :=
  ⟨rfl, by decide⟩

/-- C3 amended: when every submission attempt fails at the transport or
returns a response lacking a handle, the loop makes exactly 3 attempts and
fails with the last underlying cause as claimed, but the 2-second backoff
is performed only after a non-final transport-failed attempt; an attempt
whose response merely lacks a handle retries immediately. -/
theorem claim_C3_amended :
    ∀ (c : CheckType) (r1 r2 r3 : SubmitResp) (rest : List SubmitResp),
    notSubmitted r1 = true → notSubmitted r2 = true → notSubmitted r3 = true →
    checkSubmit c (r1 :: r2 :: r3 :: rest) =
      (SubmitOutcome.err (lastErrMsg r3), 2 * backoffCount [r1, r2], 3) := by
  intro c r1 r2 r3 rest h1 h2 h3
  simp only [notSubmitted] at h1 h2 h3
  cases r1 <;> cases r2 <;> cases r3 <;>
    simp_all [checkSubmit, submitGo, MAX_RETRIES, lastErrMsg, backoffCount, List.filter]

/-- Witness for C3 amended: transport failure, missing handle, transport
failure gives the transport error message and a single 2-second backoff. -/
theorem claim_C3_amended_witness :
    checkSubmit CheckType.ping
      [SubmitResp.transportFail "boom", SubmitResp.respNoId,
       SubmitResp.transportFail "bam"] =
      (SubmitOutcome.err "API request failed after retries: bam", 2, 3) := by
  have h := claim_C3_amended CheckType.ping (SubmitResp.transportFail "boom")
    SubmitResp.respNoId (SubmitResp.transportFail "bam") [] rfl rfl rfl
  simpa [lastErrMsg, backoffCount, List.filter] using h
/-! ## Claim C4: all-null payloads time out -/

/-- Helper for C4: from any elapsed value, if every observed response is a
non-empty all-null payload and the timing respects the sleep cadence, a
trace long enough to carry the loop past the ceiling ends in the
incomplete-results timeout. -/
theorem pollLoop_allNull_times_out :
    ∀ (steps : List PollStep) (e : ℚ), steps.all allNullStep = true →
    validTiming e steps = true →
    MAX_WAIT_TIME ≤ e + RESULT_WAIT_TIME * steps.length →
    getCheckResults e steps = PollOutcome.err "Timeout waiting for all nodes to respond" := by
  intro steps
  induction steps with
  | nil =>
    intro e _ _ hle
    simp only [List.length_nil, Nat.cast_zero, mul_zero, add_zero] at hle
    unfold getCheckResults
    rw [if_neg (not_lt.mpr hle)]
  | cons s rest ih =>
    intro e hall hvt hle
    simp only [List.all_cons, Bool.and_eq_true] at hall
    obtain ⟨hs, hrest⟩ := hall
    simp only [validTiming, Bool.and_eq_true, decide_eq_true_eq] at hvt
    obtain ⟨hts, hvrest⟩ := hvt
    have hvrest2 : validTiming s.tAfter rest = true := hvrest
    by_cases he : e < MAX_WAIT_TIME
    · unfold getCheckResults
      rw [if_pos he]
      unfold allNullStep at hs
      cases hresp : s.resp with
      | fail m =>
        rw [hresp] at hs
        cases hs
      | ok p =>
        rw [hresp] at hs
        simp only [Bool.and_eq_true] at hs
        obtain ⟨hne, hnull⟩ := hs
        have hfalse : allResponded p = false := by
          cases p with
          | nil => simp at hne
          | cons kv tl =>
            simp only [List.all_cons, Bool.and_eq_true] at hnull
            simp [allResponded, hnull.1]
        simp only [hfalse, Bool.false_eq_true, if_false]
        apply ih s.tAfter hrest hvrest2
        have hlen : ((s :: rest).length : ℚ) = (rest.length : ℚ) + 1 := by
          push_cast [List.length_cons]
          ring
        rw [hlen] at hle
        simp only [MAX_WAIT_TIME, RESULT_WAIT_TIME] at hts hle ⊢
        linarith
    · unfold getCheckResults
      rw [if_neg he]

/-- C4: for every trace of poll responses in which every poll returns a
non-empty payload whose vantage points are all still null, under the
sleep-cadence timing constraint and with at least the three iterations the
ceiling allows, the loop never returns the payload and ends with the
incomplete-results timeout error. -/
theorem claim_C4_all_null_times_out :
    ∀ (steps : List PollStep), steps.all allNullStep = true →
    validTiming 0 steps = true → 3 ≤ steps.length →
    getCheckResults 0 steps = PollOutcome.err "Timeout waiting for all nodes to respond" := by
  intro steps hall hvt hlen
  apply pollLoop_allNull_times_out steps 0 hall hvt
  have hq : (3 : ℚ) ≤ (steps.length : ℚ) := by exact_mod_cast hlen
  unfold MAX_WAIT_TIME RESULT_WAIT_TIME
  linarith

/-- Witness trace for C4. -/
def c4StepsW : List PollStep :=
  [PollStep.mk (PollResp.ok [("a", JVal.null)]) 10,
   PollStep.mk (PollResp.ok [("a", JVal.null)]) 20,
   PollStep.mk (PollResp.ok [("a", JVal.null)]) 30]

/-- Witness for C4 at a concrete three-iteration all-null trace. -/
theorem claim_C4_all_null_times_out_witness :
    getCheckResults 0 c4StepsW =
      PollOutcome.err "Timeout waiting for all nodes to respond" :=
  claim_C4_all_null_times_out c4StepsW (by decide) (by with_unfolding_all rfl) (by decide)

/-! ## Claim C2: totality boundary of the normalizers -/

/-- Counterexample to C2 as stated: a known node whose entry passes the
outer validity checks but contains the malformed attempt `[1, 2]`;
subscripting the integer `1` raises `TypeError`, the whole normalizer
aborts, and the record of the other (well-formed) node in the payload is
never produced. -/
theorem claim_C2_counterexample :
    NetworkTester.ping
      [("us1.node.check-host.net", JVal.arr [JVal.arr [JVal.num 1, JVal.num 2]]),
       ("de1.node.check-host.net", JVal.null)] = Except.error "TypeError" := by
  with_unfolding_all rfl

/-- Whether an exceptional computation returned normally. -/
def exceptOk {e a : Type} : Except e a → Bool
  | Except.ok _ => true
  | Except.error _ => false

theorem exceptOk_iff {e a : Type} (x : Except e a) :
    exceptOk x = true ↔ ∃ y, x = Except.ok y := by
  cases x <;> simp [exceptOk]

/-- A ping attempt the per-attempt parsing cannot raise on: a non-empty
array whose rtt field is numeric (or boolean) whenever the status field
equals `"OK"`. -/
def attemptSafe : JVal → Bool
  | JVal.arr (hd :: tl) =>
    if eqOK hd then
      match tl with
      | JVal.num _ :: _ => true
      | JVal.bool _ :: _ => true
      | _ => false
    else true
  | _ => false

/-- A DNS record that `len(record)` and `record[1]` cannot raise on. -/
def dnsRecSafe : JVal → Bool
  | JVal.arr _ => true
  | _ => false

/-- A value Python can subscript at position 0 without raising. -/
def headIndexable : JVal → Bool
  | JVal.arr (_ :: _) => true
  | _ => false

/-- Node values on which the per-check-type interpretation provably does
not raise: either the explicit validity checks of the source reject them
(the `No data` / `Invalid response` branches) or their inner fields are
well-formed enough for the arithmetic the source then performs. -/
def entrySafe : CheckType → JVal → Bool
  | CheckType.ping, JVal.arr (JVal.arr ws :: _) =>
    decide (ws.length ≤ 1) || ws.all attemptSafe
  | CheckType.ping, _ => true
  | CheckType.http, JVal.arr (JVal.arr ws :: _) =>
    decide (ws.length ≤ 3) || !isNull (ws.getD 1 (JVal.num 0))
  | CheckType.http, _ => true
  | CheckType.tcp, JVal.arr (JVal.arr ws :: _) =>
    decide (ws.length ≤ 1) || !isNull (ws.getD 1 (JVal.num 0))
  | CheckType.tcp, _ => true
  | CheckType.udp, JVal.arr (JVal.arr ws :: _) =>
    decide (ws.length ≤ 1) || !isNull (ws.getD 1 (JVal.num 0))
  | CheckType.udp, _ => true
  | CheckType.dns, JVal.arr (JVal.arr ws :: _) =>
    ws.isEmpty || (ws.all dnsRecSafe && headIndexable (ws.headD JVal.null))
  | CheckType.dns, _ => true

theorem pyIndex_arr_ok (xs : List JVal) (i : Nat) (h : i < xs.length) :
    ∃ y, pyIndex (JVal.arr xs) i = Except.ok y := by
  simp only [pyIndex]
  cases hg : xs.get? i with
  | none =>
    rw [List.get?_eq_none] at hg
    omega
  | some y => exact ⟨y, rfl⟩

theorem pyMul1000_ok_of_not_null (v : JVal) (h : isNull v = false) :
    ∃ w, pyMul1000 v = Except.ok w := by
  cases v with
  | null => simp [isNull] at h
  | bool b => exact ⟨_, rfl⟩
  | num q => exact ⟨_, rfl⟩
  | str s => exact ⟨_, rfl⟩
  | arr xs => exact ⟨_, rfl⟩

theorem countOK_ok (ws : List JVal) (h : ∀ a ∈ ws, attemptSafe a = true) :
    ∃ n, countOK ws = Except.ok n := by
  induction ws with
  | nil => exact ⟨0, rfl⟩
  | cons a rest ih =>
    have ha := h a (by simp)
    obtain ⟨n, hn⟩ := ih (fun x hx => h x (by simp [hx]))
    cases a with
    | null => simp [attemptSafe] at ha
    | bool b => simp [attemptSafe] at ha
    | num q => simp [attemptSafe] at ha
    | str s => simp [attemptSafe] at ha
    | arr xs =>
      cases xs with
      | nil => simp [attemptSafe] at ha
      | cons hd tl =>
        refine ⟨if eqOK hd then n + 1 else n, ?_⟩
        simp [countOK, pyIndex, hn, Bind.bind, Except.bind, pure, Except.pure]

theorem rttsOf_ok (ws : List JVal) (h : ∀ a ∈ ws, attemptSafe a = true) :
    ∃ l, rttsOf ws = Except.ok l ∧ ∀ x ∈ l, ∃ q, x = JVal.num q := by
  induction ws with
  | nil => exact ⟨[], rfl, by simp⟩
  | cons a rest ih =>
    have ha := h a (by simp)
    obtain ⟨l, hl, hnum⟩ := ih (fun x hx => h x (by simp [hx]))
    cases a with
    | null => simp [attemptSafe] at ha
    | bool b => simp [attemptSafe] at ha
    | num q => simp [attemptSafe] at ha
    | str s => simp [attemptSafe] at ha
    | arr xs =>
      cases xs with
      | nil => simp [attemptSafe] at ha
      | cons hd tl =>
        by_cases hOK : eqOK hd = true
        · simp only [attemptSafe, if_pos hOK] at ha
          cases tl with
          | nil => simp at ha
          | cons t ts =>
            cases t with
            | num q =>
              refine ⟨JVal.num (q * 1000) :: l, ?_, ?_⟩
              · simp [rttsOf, pyIndex, hOK, hl, pyMul1000,
                      Bind.bind, Except.bind, pure, Except.pure]
              · intro x hx
                rcases List.mem_cons.mp hx with rfl | hx2
                · exact ⟨q * 1000, rfl⟩
                · exact hnum x hx2
            | bool b =>
              refine ⟨JVal.num (if b then 1000 else 0) :: l, ?_, ?_⟩
              · simp [rttsOf, pyIndex, hOK, hl, pyMul1000,
                      Bind.bind, Except.bind, pure, Except.pure]
              · intro x hx
                rcases List.mem_cons.mp hx with rfl | hx2
                · exact ⟨_, rfl⟩
                · exact hnum x hx2
            | null => simp at ha
            | str s => simp at ha
            | arr ys => simp at ha
        · have hOK2 : eqOK hd = false := by
            cases hq : eqOK hd
            · rfl
            · exact absurd hq hOK
          refine ⟨l, ?_, hnum⟩
          simp [rttsOf, pyIndex, hOK2, hl, Bind.bind, Except.bind]

theorem pySum_ok (l : List JVal) (h : ∀ x ∈ l, ∃ q, x = JVal.num q) :
    ∃ s, pySum l = Except.ok s := by
  induction l with
  | nil => exact ⟨0, rfl⟩
  | cons x rest ih =>
    obtain ⟨q, hq⟩ := h x (by simp)
    subst hq
    obtain ⟨s, hs⟩ := ih (fun y hy => h y (by simp [hy]))
    exact ⟨q + s, by simp [pySum, asNum, hs, Bind.bind, Except.bind, pure, Except.pure]⟩

theorem pyMinFold_ok (l : List JVal) :
    ∀ q : ℚ, (∀ x ∈ l, ∃ r, x = JVal.num r) → ∃ m, pyMinFold q l = Except.ok m := by
  induction l with
  | nil => exact fun q _ => ⟨q, rfl⟩
  | cons x rest ih =>
    intro q h
    obtain ⟨r, hr⟩ := h x (by simp)
    subst hr
    obtain ⟨m, hm⟩ := ih (min q r) (fun y hy => h y (by simp [hy]))
    exact ⟨m, by simp [pyMinFold, asNum, hm, Bind.bind, Except.bind]⟩

theorem pyMaxFold_ok (l : List JVal) :
    ∀ q : ℚ, (∀ x ∈ l, ∃ r, x = JVal.num r) → ∃ m, pyMaxFold q l = Except.ok m := by
  induction l with
  | nil => exact fun q _ => ⟨q, rfl⟩
  | cons x rest ih =>
    intro q h
    obtain ⟨r, hr⟩ := h x (by simp)
    subst hr
    obtain ⟨m, hm⟩ := ih (max q r) (fun y hy => h y (by simp [hy]))
    exact ⟨m, by simp [pyMaxFold, asNum, hm, Bind.bind, Except.bind]⟩

theorem pyMinQ_ok (l : List JVal) (hne : l ≠ [])
    (h : ∀ x ∈ l, ∃ q, x = JVal.num q) : ∃ m, pyMinQ l = Except.ok m := by
  cases l with
  | nil => exact absurd rfl hne
  | cons x rest =>
    obtain ⟨q, hq⟩ := h x (by simp)
    subst hq
    obtain ⟨m, hm⟩ := pyMinFold_ok rest q (fun y hy => h y (by simp [hy]))
    exact ⟨m, by simp [pyMinQ, asNum, hm, Bind.bind, Except.bind]⟩

theorem pyMaxQ_ok (l : List JVal) (hne : l ≠ [])
    (h : ∀ x ∈ l, ∃ q, x = JVal.num q) : ∃ m, pyMaxQ l = Except.ok m := by
  cases l with
  | nil => exact absurd rfl hne
  | cons x rest =>
    obtain ⟨q, hq⟩ := h x (by simp)
    subst hq
    obtain ⟨m, hm⟩ := pyMaxFold_ok rest q (fun y hy => h y (by simp [hy]))
    exact ⟨m, by simp [pyMaxQ, asNum, hm, Bind.bind, Except.bind]⟩

theorem pingNode_safe_ok (v : JVal) (h : entrySafe CheckType.ping v = true) :
    exceptOk (pingNode v) = true := by
  cases v with
  | null => rfl
  | bool b => rfl
  | num q => rfl
  | str s => rfl
  | arr xs =>
    cases xs with
    | nil => rfl
    | cons w rest =>
      cases w with
      | null => rfl
      | bool b => rfl
      | num q => rfl
      | str s => rfl
      | arr ws =>
        by_cases hlen : ws.length ≤ 1
        · simp only [pingNode]
          rw [if_neg (by omega)]
          rfl
        · have hlen2 : ws.length > 1 := by omega
          simp only [entrySafe] at h
          rw [Bool.or_eq_true] at h
          have hall : ∀ a ∈ ws, attemptSafe a = true := by
            rcases h with h1 | h2
            · exact absurd (of_decide_eq_true h1) hlen
            · exact List.all_eq_true.mp h2
          obtain ⟨n, hn⟩ := countOK_ok ws hall
          obtain ⟨l, hl, hnum⟩ := rttsOf_ok ws hall
          have hw0 : ∃ hd tl, ws.headD JVal.null = JVal.arr (hd :: tl) := by
            cases ws with
            | nil => simp at hlen2
            | cons a tl2 =>
              have ha := hall a (by simp)
              cases a with
              | arr ys =>
                cases ys with
                | nil => simp [attemptSafe] at ha
                | cons hd tl3 => exact ⟨hd, tl3, rfl⟩
              | null => simp [attemptSafe] at ha
              | bool b => simp [attemptSafe] at ha
              | num q => simp [attemptSafe] at ha
              | str s2 => simp [attemptSafe] at ha
          obtain ⟨hd, tl, hw0⟩ := hw0
          have hw0b : ws.head?.getD JVal.null = JVal.arr (hd :: tl) := by
            simpa [List.headD_eq_head?_getD] using hw0
          by_cases hemp : l.isEmpty = true
          · by_cases h2 : 2 < (hd :: tl).length
            · obtain ⟨y, hy⟩ := pyIndex_arr_ok (hd :: tl) 2 h2
              simp only [List.length_cons] at h2
              simp only [pingNode]
              rw [if_pos hlen2]
              simp [hn, hl, hw0b, hemp, h2, hy, pyLen, exceptOk,
                    Bind.bind, Except.bind, pure, Except.pure]
            · simp only [List.length_cons] at h2
              simp only [pingNode]
              rw [if_pos hlen2]
              simp [hn, hl, hw0b, hemp, h2, pyLen, exceptOk,
                    Bind.bind, Except.bind, pure, Except.pure]
          · have hempf : l.isEmpty = false := by
              cases hq : l.isEmpty
              · rfl
              · exact absurd hq hemp
            have hlne : l ≠ [] := by
              cases l
              · simp at hempf
              · simp
            obtain ⟨s, hs⟩ := pySum_ok l hnum
            obtain ⟨mn, hmn⟩ := pyMinQ_ok l hlne hnum
            obtain ⟨mx, hmx⟩ := pyMaxQ_ok l hlne hnum
            by_cases h2 : 2 < (hd :: tl).length
            · obtain ⟨y, hy⟩ := pyIndex_arr_ok (hd :: tl) 2 h2
              simp only [List.length_cons] at h2
              simp only [pingNode]
              rw [if_pos hlen2]
              simp [hn, hl, hs, hmn, hmx, hw0b, hempf, h2, hy, pyLen, exceptOk,
                    Bind.bind, Except.bind, pure, Except.pure]
            · simp only [List.length_cons] at h2
              simp only [pingNode]
              rw [if_pos hlen2]
              simp [hn, hl, hs, hmn, hmx, hw0b, hempf, h2, pyLen, exceptOk,
                    Bind.bind, Except.bind, pure, Except.pure]

theorem httpNode_safe_ok (v : JVal) (h : entrySafe CheckType.http v = true) :
    exceptOk (httpNode v) = true := by
  cases v with
  | null => rfl
  | bool b => rfl
  | num q => rfl
  | str s => rfl
  | arr xs =>
    cases xs with
    | nil => rfl
    | cons w rest =>
      cases w with
      | null => rfl
      | bool b => rfl
      | num q => rfl
      | str s => rfl
      | arr ws =>
        rcases ws with _ | ⟨a, _ | ⟨b2, _ | ⟨c2, _ | ⟨d, ws2⟩⟩⟩⟩
        · rfl
        · rfl
        · rfl
        · rfl
        · simp only [entrySafe] at h
          rw [Bool.or_eq_true] at h
          have hb : isNull b2 = false := by
            rcases h with h1 | h2
            · have hle := of_decide_eq_true h1
              simp only [List.length_cons] at hle
              omega
            · simpa [List.getD_cons_succ, List.getD_cons_zero] using h2
          obtain ⟨z, hz⟩ := pyMul1000_ok_of_not_null b2 hb
          simp [httpNode, hz, exceptOk, Bind.bind, Except.bind, pure, Except.pure]

theorem tcpNode_safe_ok (v : JVal) (h : entrySafe CheckType.tcp v = true) :
    exceptOk (tcpNode v) = true := by
  cases v with
  | null => rfl
  | bool b => rfl
  | num q => rfl
  | str s => rfl
  | arr xs =>
    cases xs with
    | nil => rfl
    | cons w rest =>
      cases w with
      | null => rfl
      | bool b => rfl
      | num q => rfl
      | str s => rfl
      | arr ws =>
        rcases ws with _ | ⟨a, _ | ⟨b2, ws2⟩⟩
        · rfl
        · rfl
        · simp only [entrySafe] at h
          rw [Bool.or_eq_true] at h
          have hb : isNull b2 = false := by
            rcases h with h1 | h2
            · have hle := of_decide_eq_true h1
              simp only [List.length_cons] at hle
              omega
            · simpa [List.getD_cons_succ, List.getD_cons_zero] using h2
          obtain ⟨z, hz⟩ := pyMul1000_ok_of_not_null b2 hb
          simp [tcpNode, hz, exceptOk, Bind.bind, Except.bind, pure, Except.pure]

theorem udpNode_safe_ok (v : JVal) (h : entrySafe CheckType.udp v = true) :
    exceptOk (udpNode v) = true := by
  cases v with
  | null => rfl
  | bool b => rfl
  | num q => rfl
  | str s => rfl
  | arr xs =>
    cases xs with
    | nil => rfl
    | cons w rest =>
      cases w with
      | null => rfl
      | bool b => rfl
      | num q => rfl
      | str s => rfl
      | arr ws =>
        rcases ws with _ | ⟨a, _ | ⟨b2, ws2⟩⟩
        · rfl
        · rfl
        · simp only [entrySafe] at h
          rw [Bool.or_eq_true] at h
          have hb : isNull b2 = false := by
            rcases h with h1 | h2
            · have hle := of_decide_eq_true h1
              simp only [List.length_cons] at hle
              omega
            · simpa [List.getD_cons_succ, List.getD_cons_zero] using h2
          obtain ⟨z, hz⟩ := pyMul1000_ok_of_not_null b2 hb
          simp [udpNode, hz, exceptOk, Bind.bind, Except.bind, pure, Except.pure]

theorem dnsAddresses_ok (ws : List JVal) (h : ∀ r ∈ ws, dnsRecSafe r = true) :
    ∃ l, dnsAddresses ws = Except.ok l := by
  induction ws with
  | nil => exact ⟨[], rfl⟩
  | cons r rest ih =>
    have hr := h r (by simp)
    obtain ⟨l, hl⟩ := ih (fun x hx => h x (by simp [hx]))
    cases r with
    | arr xs =>
      by_cases h1 : 1 < xs.length
      · obtain ⟨y, hy⟩ := pyIndex_arr_ok xs 1 h1
        refine ⟨y :: l, ?_⟩
        simp [dnsAddresses, pyLen, h1, hy, hl, Bind.bind, Except.bind, pure, Except.pure]
      · refine ⟨l, ?_⟩
        simp [dnsAddresses, pyLen, h1, hl, Bind.bind, Except.bind]
    | null => simp [dnsRecSafe] at hr
    | bool b => simp [dnsRecSafe] at hr
    | num q => simp [dnsRecSafe] at hr
    | str s => simp [dnsRecSafe] at hr

theorem dnsNode_safe_ok (v : JVal) (h : entrySafe CheckType.dns v = true) :
    exceptOk (dnsNode v) = true := by
  cases v with
  | null => rfl
  | bool b => rfl
  | num q => rfl
  | str s => rfl
  | arr xs =>
    cases xs with
    | nil => rfl
    | cons w rest =>
      cases w with
      | null => rfl
      | bool b => rfl
      | num q => rfl
      | str s => rfl
      | arr ws =>
        cases ws with
        | nil => rfl
        | cons w0 ws2 =>
          simp only [entrySafe] at h
          have h2 : ((w0 :: ws2).all dnsRecSafe &&
              headIndexable ((w0 :: ws2).headD JVal.null)) = true := by
            simpa using h
          rw [Bool.and_eq_true] at h2
          obtain ⟨hrecs, hhead⟩ := h2
          obtain ⟨l, hl⟩ := dnsAddresses_ok (w0 :: ws2) (List.all_eq_true.mp hrecs)
          cases w0 with
          | arr ys =>
            cases ys with
            | nil => simp [headIndexable] at hhead
            | cons y ys2 =>
              have hc : pyIndex (JVal.arr (y :: ys2)) 0 = Except.ok y := by
                simp [pyIndex]
              by_cases ht : pyTruthy y = true
              · have hnn : isNull y = false := by
                  cases y <;> simp_all [pyTruthy, isNull]
                obtain ⟨z, hz⟩ := pyMul1000_ok_of_not_null y hnn
                simp [dnsNode, hl, hc, ht, hz, exceptOk,
                      Bind.bind, Except.bind, pure, Except.pure]
              · have ht2 : pyTruthy y = false := by
                  cases hq : pyTruthy y
                  · rfl
                  · exact absurd hq ht
                simp [dnsNode, hl, hc, ht2, exceptOk,
                      Bind.bind, Except.bind, pure, Except.pure]
          | null => simp [headIndexable] at hhead
          | bool b => simp [headIndexable] at hhead
          | num q => simp [headIndexable] at hhead
          | str s => simp [headIndexable] at hhead

theorem perNode_total (c : CheckType) (v : JVal) (h : entrySafe c v = true) :
    ∃ r, perNode c v = Except.ok r := by
  have hok : exceptOk (perNode c v) = true := by
    cases c
    case ping => exact pingNode_safe_ok v h
    case http => exact httpNode_safe_ok v h
    case tcp => exact tcpNode_safe_ok v h
    case udp => exact udpNode_safe_ok v h
    case dns => exact dnsNode_safe_ok v h
  exact (exceptOk_iff _).mp hok

/-- C2 amended: on raw payloads (without the reserved `error` key) whose
known-node entries are each either rejected by the explicit validity
checks or structurally well-formed (`entrySafe`), every normalizer returns
a result mapping without raising, and every known vantage point of the
payload is represented in it; as `claim_C2_counterexample` shows, an entry
that passes the explicit checks but has malformed inner fields instead
makes the normalizer raise, so totality does not hold for arbitrary
malformed payloads. -/
theorem claim_C2_amended :
    ∀ (c : CheckType) (p : Payload),
    lookupKey p "error" = none →
    (∀ kv ∈ p, nodeKnown kv.1 = true → entrySafe c kv.2 = true) →
    ∃ res, normalizeOf c p = Except.ok (NormOut.results res) ∧
      ∀ kv ∈ p, nodeKnown kv.1 = true → nodeLabel kv.1 ∈ keysOf res := by
  intro c p herr hsafe
  have htot : ∀ kv ∈ p, nodeKnown kv.1 = true → ∃ r, perNode c kv.2 = Except.ok r :=
    fun kv hkv hk => perNode_total c kv.2 (hsafe kv hkv hk)
  obtain ⟨res, hres⟩ := normLoop_total (perNode c) p htot []
  refine ⟨res, ?_, ?_⟩
  · unfold normalizeOf normalizeWith
    rw [herr, hres]
    rfl
  · intro kv hkv hk
    rw [normLoop_ok_keys (perNode c) p [] res hres]
    exact Or.inr ⟨kv, hkv, hk, rfl⟩

/-- Witness for C2 amended at a payload with one known node carrying a
null entry. -/
theorem claim_C2_amended_witness :
    ∃ res, normalizeOf CheckType.ping [("de1.node.check-host.net", JVal.null)] =
      Except.ok (NormOut.results res) ∧
      ∀ kv ∈ ([("de1.node.check-host.net", JVal.null)] : Payload),
        nodeKnown kv.1 = true → nodeLabel kv.1 ∈ keysOf res :=
  claim_C2_amended CheckType.ping [("de1.node.check-host.net", JVal.null)] rfl (by decide)

end CheckHost
